import Mathlib

/-!
Verification development for the exam-simulator quiz runner (`app.py`).

The program is a single-page application driven by reruns over a mutable
session-state bag.  We embed that bag as the structure `GlobalState`, the
save codec (`generate_save_code` / `load_save_code`) over a typed payload
mirroring the JSON object it transports, and the per-rerun event handlers
of the two game screens as explicit step functions.  Python exceptions
(IndexError on list indexing, ZeroDivisionError on `/` by zero) are made
explicit via `Except PyExn`.
-/

set_option maxHeartbeats 1000000

/-- A question record, as parsed from the question bank JSON: fields
`question_text`, `options` (key to option text), `answer_key`, `rationale`. -/
structure Question where
  question_text : String
  options : List (String × String)
  answer_key : String
  rationale : String
deriving DecidableEq

/-- One row of the history ledger, appended on the game-over screen:
`{"Date": ..., "Score": "N/M", "Score (%)": round(percent, 1)}`. -/
structure HistoryEntry where
  date : String
  score_label : String
  score_percent : ℚ
deriving DecidableEq

/-- The session-state bag of the app.  Keys that the initialization block
(lines 58-69) does not create (`quiz_data`, `current_index`, `score`,
`answer_submitted`) are modelled with their eventual first values, since
every read of them in the code happens after the start or load handler
assigned them.  The sentinel keys `scored_current`, `sim_scored` and
`history_saved`, whose presence is tested with `in st.session_state`, are
modelled as Booleans (present = true, deleted/absent = false). -/
structure GlobalState where
  game_active : Bool
  quiz_finished : Bool
  history : List HistoryEntry
  incorrect_indices : List Question
  simulation_mode : Bool
  user_answers : List String
  quiz_data : List Question
  current_index : Int
  score : Int
  answer_submitted : Bool
  scored_current : Bool
  sim_scored : Bool
  history_saved : Bool
deriving DecidableEq

/-- The fresh-process state after the initialization block (lines 58-69). -/
def initialState : GlobalState :=
  { game_active := false
    quiz_finished := false
    history := []
    incorrect_indices := []
    simulation_mode := false
    user_answers := []
    quiz_data := []
    current_index := 0
    score := 0
    answer_submitted := false
    scored_current := false
    sim_scored := false
    history_saved := false }

/-- Python list indexing `l[i]`: negative indices count from the end,
out-of-range indices raise IndexError (modelled as `none`). -/
def pyIndex {α : Type} (l : List α) (i : Int) : Option α :=
  let j : Int := if i < 0 then (l.length : Int) + i else i
  if 0 ≤ j ∧ j < (l.length : Int) then l.get? j.toNat else none

/-- Python list item assignment `l[i] = x`: negative indices count from the
end, out-of-range indices raise IndexError (modelled as `none`). -/
def pyListSet {α : Type} (l : List α) (i : Int) (x : α) : Option (List α) :=
  let j : Int := if i < 0 then (l.length : Int) + i else i
  if 0 ≤ j ∧ j < (l.length : Int) then some (l.set j.toNat x) else none

/-- Python slicing `l[:n]`: nonnegative `n` keeps the first `n` elements
(all of them if `n` exceeds the length); negative `n` drops `-n` elements
from the end. -/
def pySliceTo {α : Type} (l : List α) (n : Int) : List α :=
  if 0 ≤ n then l.take n.toNat else l.take ((l.length : Int) + n).toNat

/-- Python `round(x, 1)`.  The code rounds a float; we model the value as a
rational rounded to one decimal place (the float tie-breaking detail is
immaterial to every claim, none of which constrains the rounded digit). -/
def round1 (x : ℚ) : ℚ := ((round (x * 10) : ℤ) : ℚ) / 10

-- ==========================================
-- Save codec (lines 21-55)
-- ==========================================

/-- The inner JSON object of a save token, as consumed by
`load_save_code`: each expected key is either present with a value of the
shape the game itself stores there, or absent (`none`), in which case the
dict `get` call supplies the documented default.  A token whose transport
layer fails (invalid base64, undecodable bytes, unparsable JSON) or whose
inner payload is not an object at all (so that `state_data.get` raises
AttributeError) is modelled as the absence of any `StateData` (see
`load_save_code`). -/
structure StateData where
  current_index : Option Int
  score : Option Int
  quiz_data : Option (List Question)
  history : Option (List HistoryEntry)
  incorrect_indices : Option (List Question)
  simulation_mode : Option Bool
  user_answers : Option (List String)
deriving DecidableEq

/-- The payload of an empty JSON object `\x7b\x7d`: every key absent. -/
def emptyStateData : StateData :=
  { current_index := none
    score := none
    quiz_data := none
    history := none
    incorrect_indices := none
    simulation_mode := none
    user_answers := none }

/-- The function `generate_save_code` (lines 21-34): the dict literal written into the
token carries every one of the seven keys, taken verbatim from the current
session state. -/
def generate_save_code (s : GlobalState) : StateData :=
  { current_index := some s.current_index
    score := some s.score
    quiz_data := some s.quiz_data
    history := some s.history
    incorrect_indices := some s.incorrect_indices
    simulation_mode := some s.simulation_mode
    user_answers := some s.user_answers }

/-- The function `load_save_code` (lines 36-55).  `none` models every token for which
the try block raises before the first assignment (bad base64, undecodable
bytes, bad JSON, or a payload that is not an object, so `state_data.get`
raises AttributeError); the except handler then returns False with the
state untouched.  With an object payload, each field is restored via
`state_data.get(key, default)` (which cannot fail), then the three status
flags are forced: game active, not finished, no answer submitted. -/
def load_save_code (tok : Option StateData) (s : GlobalState) : GlobalState × Bool :=
  match tok with
  | none => (s, false)
  | some d =>
      ({ s with
          current_index := d.current_index.getD 0
          score := d.score.getD 0
          quiz_data := d.quiz_data.getD []
          history := d.history.getD []
          incorrect_indices := d.incorrect_indices.getD []
          simulation_mode := d.simulation_mode.getD false
          user_answers := d.user_answers.getD []
          game_active := true
          quiz_finished := false
          answer_submitted := false }, true)

-- ==========================================
-- Start-menu subset construction (lines 116-120)
-- ==========================================

/-- The quiz list built by the Start New Exam handler (lines 116-120):
copy the bank, optionally shuffle it in place, then slice to the first
`q_limit` entries.  `random.shuffle` is the external randomness source; it
is modelled by the parameter `shuffled`, constrained to be a permutation
of `raw` wherever a theorem needs that fact. -/
def subsetQuestions (raw : List Question) (shuffled : List Question)
    (shuffle_opt : Bool) (q_limit : Int) : List Question :=
  let subset := if shuffle_opt then shuffled else raw
  pySliceTo subset q_limit

/-- Error value for the spec-side subset contract. -/
inductive SubsetError where
  | invalidCount
deriving DecidableEq

/-- Modelled from the spec: the `subset(count, shuffle)` operation of §4.1,
which the spec requires to fail with `InvalidCount` when `count` ≤ 0 or
`count` > len(bank).  The code itself (see `subsetQuestions`) has no such
failure; this definition exists only to state the divergence. -/
def subsetSpec (bank : List Question) (shuffled : List Question)
    (shuffle_opt : Bool) (count : Int) : Except SubsetError (List Question) :=
  if count ≤ 0 ∨ (bank.length : Int) < count then .error .invalidCount
  else .ok (pySliceTo (if shuffle_opt then shuffled else bank) count)

-- ==========================================
-- Screen 2: the game (lines 150-267)
-- ==========================================

/-- Python exceptions that the embedded screens can raise. -/
inductive PyExn where
  | indexError
  | zeroDivisionError
deriving DecidableEq

deriving instance DecidableEq for Except

/-- The screen-2 render prelude: the progress bar divides by
`len(quiz_data)` (line 172, ZeroDivisionError when the quiz is empty) and
`q = questions[current_idx]` (line 183, IndexError when out of range). -/
def screen2Question (s : GlobalState) : Except PyExn Question :=
  if s.quiz_data.length = 0 then .error .zeroDivisionError
  else
    match pyIndex s.quiz_data s.current_index with
    | some q => .ok q
    | none => .error .indexError

/-- The study-mode interim accuracy (lines 177-178): shown only when
`simulation_mode` is false; `score / qs_answered` with
`qs_answered = current_index + (1 if answer_submitted else 0)`, and `0.0`
when the denominator is zero. -/
def currentAccuracy (s : GlobalState) : ℚ :=
  let qs_answered : Int := s.current_index + (if s.answer_submitted then 1 else 0)
  if qs_answered > 0 then (s.score : ℚ) / (qs_answered : ℚ) else 0

/-- The study-mode feedback block (lines 216-231), executed on every rerun
while `answer_submitted` holds: `k` is `user_choice.split(":")[0]`, the
option key of the (radio-locked) selection, and `q` the current question.
In either correctness branch, the side effect on `score` respectively
`incorrect_indices` is guarded by the `scored_current` sentinel so that it
runs at most once before the next advance. -/
def renderFeedback (q : Question) (k : String) (s : GlobalState) : GlobalState :=
  if s.answer_submitted then
    if k = q.answer_key then
      if s.scored_current then s
      else { s with score := s.score + 1, scored_current := true }
    else
      if s.scored_current then s
      else { s with incorrect_indices := s.incorrect_indices ++ [q], scored_current := true }
  else s

-- ==========================================
-- Screen 3: game over (lines 272-301)
-- ==========================================

/-- The loop body of the simulation scoring block (lines 278-284):
`user_ans = user_answers[i] if i < len(user_answers) else None`, then
score on `user_ans == q["answer_key"]`, else append `q` to the missed
list.  An unanswered position compares `None` to a string and is counted
incorrect. -/
def simScoreAux : List Question → List String → Nat → Int → List Question →
    Int × List Question
  | [], _, _, sc, mis => (sc, mis)
  | q :: rest, ua, i, sc, mis =>
      if ua.get? i = some q.answer_key then simScoreAux rest ua (i + 1) (sc + 1) mis
      else simScoreAux rest ua (i + 1) sc (mis ++ [q])

/-- The simulation finalize block (lines 275-285): when in simulation mode
and not yet scored, reset `score` to 0 and `incorrect_indices` to empty,
run the scoring loop over all question positions, and set the `sim_scored`
sentinel so a re-render never re-scores. -/
def simFinalize (s : GlobalState) : GlobalState :=
  if s.simulation_mode && !s.sim_scored then
    let r := simScoreAux s.quiz_data s.user_answers 0 0 []
    { s with score := r.1, incorrect_indices := r.2, sim_scored := true }
  else s

/-- The screen-3 top-level effects (lines 272-301): the simulation
finalize block, then `percent = (final_score / total) * 100` — an
unguarded Python division that raises ZeroDivisionError when the quiz list
is empty — then the history append guarded by the `history_saved`
sentinel.  `now` is the formatted current date. -/
def finishRender (now : String) (s : GlobalState) : Except PyExn GlobalState :=
  let s1 := simFinalize s
  let total : Int := s1.quiz_data.length
  if total = 0 then .error .zeroDivisionError
  else
    let percent : ℚ := (s1.score : ℚ) / (total : ℚ) * 100
    if s1.history_saved then .ok s1
    else
      .ok { s1 with
              history := s1.history ++
                [{ date := now
                   score_label := toString s1.score ++ "/" ++ toString total
                   score_percent := round1 percent }]
              history_saved := true }

-- ==========================================
-- Event-step semantics of one session
-- ==========================================

/-- The Next Question handler in study mode (lines 233-243): clear the
answer-shown sub-state and the scoring sentinel; advance the index if
another question remains, else mark the quiz finished.  Setting
`quiz_finished` triggers an immediate rerun that renders screen 3, whose
top-level effects (`finishRender`) therefore belong to the same observable
transition. -/
def advanceStudy (now : String) (s : GlobalState) : Except PyExn GlobalState :=
  let s1 := { s with answer_submitted := false, scored_current := false }
  if s.current_index + 1 < (s.quiz_data.length : Int) then
    .ok { s1 with current_index := s1.current_index + 1 }
  else
    finishRender now { s1 with quiz_finished := true, game_active := false }

/-- The advance part of the simulation handler (lines 259-265), with the
same finish-plus-rerun behavior as `advanceStudy`. -/
def advanceSim (now : String) (s : GlobalState) : Except PyExn GlobalState :=
  if s.current_index + 1 < (s.quiz_data.length : Int) then
    .ok { s with current_index := s.current_index + 1 }
  else
    finishRender now { s with quiz_finished := true, game_active := false }

/-- User-driven events of a running session.  `k` is the option key of the
current radio selection (the handlers only fire when a selection exists),
`now` the formatted date used if the event finishes the session. -/
inductive Ev where
  | submitClick (k : String)
  | feedbackRender (k : String)
  | nextClick (k : String) (now : String)
  | simClick (k : String) (now : String)
  | finishRerender (now : String)

/-- One observable transition of the app: the rerun triggered by the given
event, executing the screen that the state selects (lines 76, 150, 272).
Events whose triggering widget is not on the rendered screen leave the
state unchanged. -/
def step (e : Ev) (s : GlobalState) : Except PyExn GlobalState :=
  match e with
  | .submitClick _k =>
      -- lines 208-213: the Submit Answer button, study mode only
      if s.game_active && !s.quiz_finished && !s.simulation_mode then
        match screen2Question s with
        | .error x => .error x
        | .ok _q =>
            if s.answer_submitted then .ok s
            else .ok { s with answer_submitted := true }
      else .ok s
  | .feedbackRender k =>
      -- a rerun while the feedback block is on screen (no button pressed)
      if s.game_active && !s.quiz_finished && !s.simulation_mode then
        match screen2Question s with
        | .error x => .error x
        | .ok q => .ok (renderFeedback q k s)
      else .ok s
  | .nextClick k now =>
      -- the rerun processing a Next Question click re-executes the
      -- feedback block (lines 216-231) before the handler (lines 233-243)
      if s.game_active && !s.quiz_finished && !s.simulation_mode then
        match screen2Question s with
        | .error x => .error x
        | .ok q =>
            let s1 := renderFeedback q k s
            if s1.answer_submitted then advanceStudy now s1 else .ok s1
      else .ok s
  | .simClick k now =>
      -- lines 249-265: the simulation Next/Finish button
      if s.game_active && !s.quiz_finished && s.simulation_mode then
        match screen2Question s with
        | .error x => .error x
        | .ok _q =>
            if s.current_index = (s.user_answers.length : Int) then
              advanceSim now { s with user_answers := s.user_answers ++ [k] }
            else
              match pyListSet s.user_answers s.current_index k with
              | none => .error .indexError
              | some ua => advanceSim now { s with user_answers := ua }
      else .ok s
  | .finishRerender now =>
      -- a rerun while screen 3 is shown: its guarded effects run again
      if s.quiz_finished then finishRender now s else .ok s

/-- The state installed by the Start New Exam handler (lines 115-131) when
pressed on a clean home screen (fresh process, so the `scored_current` and
`history_saved` sentinels are absent): quiz list `qs` (built by
`subsetQuestions`), mode `sim`, carried-over history `hist`, and all
counters reset.  The handler deletes `sim_scored` explicitly. -/
def startState (qs : List Question) (sim : Bool) (hist : List HistoryEntry) :
    GlobalState :=
  { game_active := true
    quiz_finished := false
    history := hist
    incorrect_indices := []
    simulation_mode := sim
    user_answers := []
    quiz_data := qs
    current_index := 0
    score := 0
    answer_submitted := false
    scored_current := false
    sim_scored := false
    history_saved := false }

/-- States reachable from `s0` by successful event steps. -/
inductive Reaches (s0 : GlobalState) : GlobalState → Prop where
  | refl : Reaches s0 s0
  | tail {s s' : GlobalState} (e : Ev) :
      Reaches s0 s → step e s = .ok s' → Reaches s0 s'

/-- The number of scoring decisions the session has committed so far:
while the quiz runs, one for each advanced-past question plus one when the
current question has been scored (the `scored_current` sentinel); after
finishing, one per question. -/
def decided (s : GlobalState) : Int :=
  if s.quiz_finished then (s.quiz_data.length : Int)
  else s.current_index + (if s.scored_current then 1 else 0)

-- ==========================================
-- Concrete sample data used by witnesses and counterexamples
-- ==========================================

/-- A sample question with answer key "A". -/
def qA : Question :=
  { question_text := "What is 2 + 2?"
    options := [("A", "4"), ("B", "5")]
    answer_key := "A"
    rationale := "Basic arithmetic." }

/-- A second sample question with answer key "B". -/
def qB : Question :=
  { question_text := "Pick B."
    options := [("A", "no"), ("B", "yes")]
    answer_key := "B"
    rationale := "As stated." }

-- ==========================================
-- Claim C1: save-code round trip
-- ==========================================

/-- Claim C1: decoding the token produced by `generate_save_code` restores
every persisted field — current index, score, quiz list, history, missed
list, mode, and user answers — unchanged, for every session state `s` and
every state `t` at load time, and normalizes the status flags: game
active, quiz not finished, no answer submitted. -/
theorem c1_save_roundtrip (s t : GlobalState) :
    (load_save_code (some (generate_save_code s)) t).2 = true ∧
    (load_save_code (some (generate_save_code s)) t).1.current_index = s.current_index ∧
    (load_save_code (some (generate_save_code s)) t).1.score = s.score ∧
    (load_save_code (some (generate_save_code s)) t).1.quiz_data = s.quiz_data ∧
    (load_save_code (some (generate_save_code s)) t).1.history = s.history ∧
    (load_save_code (some (generate_save_code s)) t).1.incorrect_indices =
      s.incorrect_indices ∧
    (load_save_code (some (generate_save_code s)) t).1.simulation_mode =
      s.simulation_mode ∧
    (load_save_code (some (generate_save_code s)) t).1.user_answers = s.user_answers ∧
    (load_save_code (some (generate_save_code s)) t).1.game_active = true ∧
    (load_save_code (some (generate_save_code s)) t).1.quiz_finished = false ∧
    (load_save_code (some (generate_save_code s)) t).1.answer_submitted = false := by
  refine ⟨rfl, rfl, rfl, rfl, rfl, rfl, rfl, rfl, rfl, rfl, rfl⟩

-- ==========================================
-- Claim C4: malformed token fails cleanly
-- ==========================================

/-- Claim C4: a malformed save token — invalid base64, undecodable bytes,
unparsable JSON, or an inner payload that is not an object (all the cases
in which the try block of `load_save_code` raises before any assignment,
modelled as `none`) — makes decoding return failure and leaves the entire
session and history state byte-for-byte unchanged. -/
theorem c4_decode_failure (t : GlobalState) :
    load_save_code none t = (t, false) := rfl

-- ==========================================
-- Claim C5: missing fields default
-- ==========================================

/-- Claim C5: a well-formed token whose payload object lacks one or more
of the expected keys still decodes successfully, and every missing key is
replaced by its documented default: index 0, score 0, empty lists, study
mode. -/
theorem c5_missing_field_defaults (d : StateData) (t : GlobalState) :
    (load_save_code (some d) t).2 = true ∧
    (d.current_index = none → (load_save_code (some d) t).1.current_index = 0) ∧
    (d.score = none → (load_save_code (some d) t).1.score = 0) ∧
    (d.quiz_data = none → (load_save_code (some d) t).1.quiz_data = []) ∧
    (d.history = none → (load_save_code (some d) t).1.history = []) ∧
    (d.incorrect_indices = none →
      (load_save_code (some d) t).1.incorrect_indices = []) ∧
    (d.simulation_mode = none →
      (load_save_code (some d) t).1.simulation_mode = false) ∧
    (d.user_answers = none → (load_save_code (some d) t).1.user_answers = []) := by
  refine ⟨rfl, fun h => ?_, fun h => ?_, fun h => ?_, fun h => ?_, fun h => ?_,
    fun h => ?_, fun h => ?_⟩ <;> simp [load_save_code, h]

/-- Witness for C5 at the empty payload and the fresh-process state. -/
theorem c5_missing_field_defaults_witness :
    (load_save_code (some emptyStateData) initialState).2 = true ∧
    (load_save_code (some emptyStateData) initialState).1.current_index = 0 ∧
    (load_save_code (some emptyStateData) initialState).1.score = 0 ∧
    (load_save_code (some emptyStateData) initialState).1.quiz_data = [] ∧
    (load_save_code (some emptyStateData) initialState).1.history = [] ∧
    (load_save_code (some emptyStateData) initialState).1.incorrect_indices = [] ∧
    (load_save_code (some emptyStateData) initialState).1.simulation_mode = false ∧
    (load_save_code (some emptyStateData) initialState).1.user_answers = [] := by
  have h := c5_missing_field_defaults emptyStateData initialState
  exact ⟨h.1, h.2.1 rfl, h.2.2.1 rfl, h.2.2.2.1 rfl, h.2.2.2.2.1 rfl,
    h.2.2.2.2.2.1 rfl, h.2.2.2.2.2.2.1 rfl, h.2.2.2.2.2.2.2 rfl⟩

-- ==========================================
-- Claim C10: the codec allows a zero-question active session
-- ==========================================

/-- Claim C10: a well-formed token carrying an empty object decodes
successfully into an active, non-finished session with an empty question
list — the codec never enforces the non-empty-questions precondition that
session creation imposes. -/
theorem c10_empty_token (t : GlobalState) :
    (load_save_code (some emptyStateData) t).2 = true ∧
    (load_save_code (some emptyStateData) t).1.quiz_data = [] ∧
    (load_save_code (some emptyStateData) t).1.game_active = true ∧
    (load_save_code (some emptyStateData) t).1.quiz_finished = false := by
  refine ⟨rfl, rfl, rfl, rfl⟩

-- ==========================================
-- Claim C6: interim accuracy in study mode
-- ==========================================

/-- Claim C6: in study mode the interim accuracy equals score divided by
the number of questions answered so far — the current index plus one
exactly when an answer has been submitted and not yet advanced past — and
is 0 when that denominator is 0, with no division by zero. -/
theorem c6_accuracy (s : GlobalState) (hm : s.simulation_mode = false) :
    (0 < s.current_index + (if s.answer_submitted then 1 else 0) →
      currentAccuracy s =
        (s.score : ℚ) /
          ((s.current_index + (if s.answer_submitted then 1 else 0) : Int) : ℚ)) ∧
    (s.current_index + (if s.answer_submitted then 1 else 0) = 0 →
      currentAccuracy s = 0) := by
  constructor
  · intro h
    simp only [currentAccuracy, if_pos h]
  · intro h
    simp only [currentAccuracy, h]
    norm_num

/-- Witness for C6: a study session two questions in with one correct
submission showing, accuracy 1/3; and a fresh session with accuracy 0. -/
theorem c6_accuracy_witness :
    currentAccuracy { startState [qA, qB, qA] false [] with
        current_index := 2, score := 1, answer_submitted := true } = (1 : ℚ) / 3 ∧
    currentAccuracy (startState [qA] false []) = 0 := by
  constructor
  · have h := (c6_accuracy { startState [qA, qB, qA] false [] with
        current_index := 2, score := 1, answer_submitted := true } rfl).1 (by decide)
    rw [h]
    norm_num
  · exact (c6_accuracy (startState [qA] false []) rfl).2 (by decide)

-- ==========================================
-- Claim C2: study-mode scoring happens exactly once
-- ==========================================

/-- Claim C2: in study mode, with an answer submitted for the current
question `q` and the scoring sentinel still clear, one execution of the
feedback block performs the scoring side effect exactly once — score
incremented by one when the selected key matches the answer key, otherwise
the question appended to the missed list — sets the sentinel, and a
duplicate execution before advancing (a repeated submit or re-render) is a
no-op that never double-counts. -/
theorem c2_study_scoring_once (q : Question) (k : String) (s : GlobalState)
    (hq : pyIndex s.quiz_data s.current_index = some q)
    (hsub : s.answer_submitted = true) (hsc : s.scored_current = false) :
    (renderFeedback q k s).score =
      s.score + (if k = q.answer_key then 1 else 0) ∧
    (renderFeedback q k s).incorrect_indices =
      s.incorrect_indices ++ (if k = q.answer_key then [] else [q]) ∧
    (renderFeedback q k s).scored_current = true ∧
    renderFeedback q k (renderFeedback q k s) = renderFeedback q k s := by
  unfold renderFeedback
  rw [hsub, hsc]
  by_cases hk : k = q.answer_key <;> simp [hk]

/-- Witness for C2: one question, correct key submitted; then the wrong
key on a second state. -/
theorem c2_study_scoring_once_witness :
    (renderFeedback qA "A" { startState [qA] false [] with
        answer_submitted := true }).score = 0 + 1 ∧
    (renderFeedback qA "B" { startState [qA] false [] with
        answer_submitted := true }).incorrect_indices = [] ++ [qA] := by
  have h1 := c2_study_scoring_once qA "A"
    { startState [qA] false [] with answer_submitted := true }
    (by decide) rfl rfl
  have h2 := c2_study_scoring_once qA "B"
    { startState [qA] false [] with answer_submitted := true }
    (by decide) rfl rfl
  refine ⟨?_, ?_⟩
  · rw [h1.1]; decide
  · rw [h2.2.1]; decide

-- ==========================================
-- Claim C8: the subset construction (corrected)
-- ==========================================

/-- Counterexample to claim C8 as stated: the claim says the subset
operation fails with `InvalidCount` for every count ≤ 0, but the code
never fails — at count 0 the slice simply yields the empty list (shown
here on a one-question bank, with and without shuffling), where the
spec-modelled contract `subsetSpec` demands the `InvalidCount` error. -/
theorem c8_counterexample :
    subsetQuestions [qA] [qA] false 0 = [] ∧
    subsetQuestions [qA] [qA] true 0 = [] ∧
    subsetSpec [qA] [qA] false 0 = Except.error SubsetError.invalidCount := by
  refine ⟨rfl, rfl, rfl⟩

/-- Claim C8 as amended: the subset construction is total — there is no
`InvalidCount` failure in the code (the slider clamps the count to
[1, len(bank)] upstream; counts ≤ 0 or > len(bank) just slice to fewer or
all entries).  For every valid count in [1, len(bank)]: with shuffling it
truncates a permutation of the full bank to exactly the first `count`
entries, and without shuffling it keeps the first `count` questions in
bank order (a sublist of the bank). -/
theorem c8_amended_subset (bank shuffled : List Question)
    (hperm : shuffled.Perm bank) (count : Int)
    (h1 : 1 ≤ count) (h2 : count ≤ (bank.length : Int)) :
    subsetQuestions bank shuffled true count = shuffled.take count.toNat ∧
    (subsetQuestions bank shuffled true count).length = count.toNat ∧
    subsetQuestions bank shuffled false count = bank.take count.toNat ∧
    List.Sublist (subsetQuestions bank shuffled false count) bank := by
  have h0 : (0 : Int) ≤ count := le_trans (by norm_num) h1
  have hslice : ∀ l : List Question, pySliceTo l count = l.take count.toNat := by
    intro l
    simp [pySliceTo, h0]
  refine ⟨?_, ?_, ?_, ?_⟩
  · simp [subsetQuestions, hslice]
  · have hlen : shuffled.length = bank.length := hperm.length_eq
    have hc : count.toNat ≤ shuffled.length := by
      rw [hlen]
      omega
    simp [subsetQuestions, hslice, List.length_take, Nat.min_eq_left hc]
  · simp [subsetQuestions, hslice]
  · simp only [subsetQuestions, hslice]
    simp [List.take_sublist]

/-- Witness for C8 as amended: a two-question bank, its reversal as the
shuffle outcome, count 1. -/
theorem c8_amended_subset_witness :
    subsetQuestions [qA, qB] [qB, qA] true 1 = [qB] ∧
    subsetQuestions [qA, qB] [qB, qA] false 1 = [qA] := by
  have h := c8_amended_subset [qA, qB] [qB, qA]
    (by decide) 1 (by decide) (by decide)
  exact ⟨h.1, h.2.2.1⟩

-- ==========================================
-- Claim C3: simulation finalize scoring
-- ==========================================

/-- The number of correctly-answered positions among the questions
`qs`, reading the recorded answer of the `j`-th listed question at
position `i + j` of `ua` (accumulator form of the scoring loop). -/
def correctFrom : List Question → List String → Nat → Int
  | [], _, _ => 0
  | q :: rest, ua, i =>
      (if ua.get? i = some q.answer_key then 1 else 0) + correctFrom rest ua (i + 1)

/-- The questions missed by the scoring loop, in order: those whose
recorded answer is absent or differs from the answer key. -/
def missedFrom : List Question → List String → Nat → List Question
  | [], _, _ => []
  | q :: rest, ua, i =>
      (if ua.get? i = some q.answer_key then [] else [q]) ++ missedFrom rest ua (i + 1)

theorem simScoreAux_eq (qs : List Question) (ua : List String) :
    ∀ (i : Nat) (sc : Int) (mis : List Question),
      simScoreAux qs ua i sc mis =
        (sc + correctFrom qs ua i, mis ++ missedFrom qs ua i) := by
  induction qs with
  | nil => intro i sc mis; simp [simScoreAux, correctFrom, missedFrom]
  | cons q rest ih =>
      intro i sc mis
      rw [simScoreAux, correctFrom, missedFrom]
      by_cases h : ua.get? i = some q.answer_key
      · rw [if_pos h, if_pos h, if_pos h, ih]
        rw [Prod.mk.injEq]
        exact ⟨by ring, by simp⟩
      · rw [if_neg h, if_neg h, if_neg h, ih]
        rw [Prod.mk.injEq]
        exact ⟨by ring, by simp⟩

theorem correctFrom_as_countP (qs : List Question) (ua : List String) :
    ∀ i : Nat,
      correctFrom qs ua i =
        (((List.range qs.length).countP
          (fun j => decide (ua.get? (i + j) =
            (qs.get? j).map Question.answer_key)) : Nat) : Int) := by
  induction qs with
  | nil => intro i; simp [correctFrom]
  | cons q rest ih =>
      intro i
      rw [correctFrom, List.length_cons, List.range_succ_eq_map,
        List.countP_cons, List.countP_map]
      have hcong : (List.range rest.length).countP
          ((fun j => decide (ua.get? (i + j) =
            ((q :: rest).get? j).map Question.answer_key)) ∘ Nat.succ) =
          (List.range rest.length).countP
          (fun j => decide (ua.get? ((i + 1) + j) =
            (rest.get? j).map Question.answer_key)) := by
        refine List.countP_congr ?_
        intro j _
        simp only [Function.comp_apply, List.get?_cons_succ, decide_eq_decide]
        constructor
        · intro h
          rw [show (i + 1) + j = i + Nat.succ j by omega]
          exact h
        · intro h
          rw [show i + Nat.succ j = (i + 1) + j by omega]
          exact h
      rw [hcong, ih (i + 1)]
      simp only [Nat.add_zero, List.get?_cons_zero, Option.map_some', decide_eq_true_eq]
      by_cases h : ua.get? i = some q.answer_key
      · rw [if_pos h, if_pos h]
        push_cast
        ring
      · rw [if_neg h, if_neg h]
        push_cast
        ring

theorem missedFrom_as_filterMap (qs : List Question) (ua : List String) :
    ∀ i : Nat,
      missedFrom qs ua i =
        (List.range qs.length).filterMap
          (fun j => if ua.get? (i + j) = (qs.get? j).map Question.answer_key
                    then none else qs.get? j) := by
  induction qs with
  | nil => intro i; simp [missedFrom]
  | cons q rest ih =>
      intro i
      rw [missedFrom, List.length_cons, List.range_succ_eq_map,
        List.filterMap_cons, List.filterMap_map]
      have hcong : (List.range rest.length).filterMap
          ((fun j => if ua.get? (i + j) =
              ((q :: rest).get? j).map Question.answer_key
            then none else (q :: rest).get? j) ∘ Nat.succ) =
          (List.range rest.length).filterMap
          (fun j => if ua.get? ((i + 1) + j) =
              (rest.get? j).map Question.answer_key
            then none else rest.get? j) := by
        refine List.filterMap_congr ?_
        intro j _
        simp only [Function.comp_apply, List.get?_cons_succ]
        rw [show i + Nat.succ j = (i + 1) + j by omega]
      rw [hcong, ih (i + 1)]
      simp only [Nat.add_zero, List.get?_cons_zero, Option.map_some']
      by_cases h : ua.get? i = some q.answer_key
      · rw [if_pos h, if_pos h]
        simp
      · rw [if_neg h, if_neg h]
        simp

/-- Claim C3: the simulation finalize block computes the final result by
scoring every question position — score incremented exactly when the
recorded answer at that position equals the answer key of the question
there, the question appended to the missed list otherwise, with positions
lacking a recorded answer counted as incorrect — so that afterwards the
score equals the number of positions answered correctly and the missed
list holds exactly the other questions, in order. -/
theorem c3_sim_finalize (s : GlobalState)
    (hm : s.simulation_mode = true) (hs : s.sim_scored = false) :
    (simFinalize s).score =
      (((List.range s.quiz_data.length).countP
        (fun i => decide (s.user_answers.get? i =
          (s.quiz_data.get? i).map Question.answer_key)) : Nat) : Int) ∧
    (simFinalize s).incorrect_indices =
      (List.range s.quiz_data.length).filterMap
        (fun i => if s.user_answers.get? i =
            (s.quiz_data.get? i).map Question.answer_key
          then none else s.quiz_data.get? i) ∧
    (simFinalize s).sim_scored = true := by
  have hg : (s.simulation_mode && !s.sim_scored) = true := by
    rw [hm, hs]; rfl
  have heq := simScoreAux_eq s.quiz_data s.user_answers 0 0 []
  unfold simFinalize
  rw [hg]
  simp only [if_pos rfl, heq]
  refine ⟨?_, ?_, rfl⟩
  · have := correctFrom_as_countP s.quiz_data s.user_answers 0
    simpa using this
  · have := missedFrom_as_filterMap s.quiz_data s.user_answers 0
    simpa using this

/-- Witness for C3: a two-question simulation with only the first position
answered, and answered correctly: final score 1, second question missed. -/
theorem c3_sim_finalize_witness :
    (simFinalize { startState [qA, qB] true [] with
        quiz_finished := true, game_active := false,
        user_answers := ["A"] }).score = 1 ∧
    (simFinalize { startState [qA, qB] true [] with
        quiz_finished := true, game_active := false,
        user_answers := ["A"] }).incorrect_indices = [qB] := by
  have h := c3_sim_finalize { startState [qA, qB] true [] with
      quiz_finished := true, game_active := false,
      user_answers := ["A"] } rfl rfl
  refine ⟨?_, ?_⟩
  · rw [h.1]; decide
  · rw [h.2.1]; decide

-- ==========================================
-- Session invariant machinery (claims C7 and C9)
-- ==========================================

theorem correctFrom_nonneg (qs : List Question) (ua : List String) :
    ∀ i : Nat, 0 ≤ correctFrom qs ua i := by
  induction qs with
  | nil => intro i; simp [correctFrom]
  | cons q rest ih =>
      intro i
      rw [correctFrom]
      have := ih (i + 1)
      by_cases h : ua.get? i = some q.answer_key
      · rw [if_pos h]; omega
      · rw [if_neg h]; omega

theorem correctFrom_add_missedFrom (qs : List Question) (ua : List String) :
    ∀ i : Nat,
      correctFrom qs ua i + ((missedFrom qs ua i).length : Int) = (qs.length : Int) := by
  induction qs with
  | nil => intro i; simp [correctFrom, missedFrom]
  | cons q rest ih =>
      intro i
      rw [correctFrom, missedFrom]
      have := ih (i + 1)
      by_cases h : ua.get? i = some q.answer_key
      · rw [if_pos h, if_pos h]
        simp only [List.nil_append, List.length_cons]
        push_cast
        omega
      · rw [if_neg h, if_neg h]
        simp only [List.cons_append, List.nil_append, List.length_cons]
        push_cast
        omega

/-- When the state is not a just-finished simulation, the finalize block
is a no-op (its guard fails). -/
theorem simFinalize_noop (s : GlobalState)
    (h : s.simulation_mode = false ∨ s.sim_scored = true) : simFinalize s = s := by
  unfold simFinalize
  rcases h with h | h <;> simp [h]

/-- Outside the simulation scoring, `finishRender` only touches the
history fields: every other field survives unchanged. -/
theorem finishRender_fields {now : String} {s s' : GlobalState}
    (h : finishRender now s = .ok s')
    (hns : s.simulation_mode = false ∨ s.sim_scored = true)
    (hn : (s.quiz_data.length : Int) ≠ 0) :
    s'.score = s.score ∧ s'.incorrect_indices = s.incorrect_indices ∧
    s'.current_index = s.current_index ∧ s'.quiz_data = s.quiz_data ∧
    s'.quiz_finished = s.quiz_finished ∧ s'.simulation_mode = s.simulation_mode ∧
    s'.scored_current = s.scored_current ∧ s'.sim_scored = s.sim_scored ∧
    s'.game_active = s.game_active ∧ s'.answer_submitted = s.answer_submitted ∧
    s'.user_answers = s.user_answers := by
  unfold finishRender at h
  rw [simFinalize_noop s hns, if_neg hn] at h
  by_cases hsv : s.history_saved = true
  · rw [if_pos hsv] at h
    cases h
    exact ⟨rfl, rfl, rfl, rfl, rfl, rfl, rfl, rfl, rfl, rfl, rfl⟩
  · rw [if_neg hsv] at h
    cases h
    exact ⟨rfl, rfl, rfl, rfl, rfl, rfl, rfl, rfl, rfl, rfl, rfl⟩

/-- First rendering of the game-over screen for a simulation session:
the finalize block installs the loop result and sets the sentinel, the
other session fields survive. -/
theorem finishRender_sim {now : String} {s s' : GlobalState}
    (h : finishRender now s = .ok s')
    (hm : s.simulation_mode = true) (hss : s.sim_scored = false)
    (hn : (s.quiz_data.length : Int) ≠ 0) :
    s'.score = correctFrom s.quiz_data s.user_answers 0 ∧
    s'.incorrect_indices = missedFrom s.quiz_data s.user_answers 0 ∧
    s'.sim_scored = true ∧ s'.current_index = s.current_index ∧
    s'.quiz_data = s.quiz_data ∧ s'.quiz_finished = s.quiz_finished ∧
    s'.simulation_mode = true ∧ s'.game_active = s.game_active ∧
    s'.answer_submitted = s.answer_submitted ∧ s'.scored_current = s.scored_current := by
  unfold finishRender simFinalize at h
  rw [hm, hss] at h
  simp only [Bool.not_false, Bool.and_true, if_true] at h
  rw [simScoreAux_eq s.quiz_data s.user_answers 0 0 []] at h
  simp only [zero_add, List.nil_append] at h
  rw [if_neg hn] at h
  by_cases hsv : s.history_saved = true
  · rw [if_pos hsv] at h
    cases h
    exact ⟨rfl, rfl, rfl, rfl, rfl, rfl, rfl, rfl, rfl, rfl⟩
  · rw [if_neg hsv] at h
    cases h
    exact ⟨rfl, rfl, rfl, rfl, rfl, rfl, rfl, rfl, rfl, rfl⟩

/-- The inductive session invariant behind claim C7: the index stays in
range (one below the length once finished), the scoring ledger balances —
in study mode, score plus missed count equals the number of committed
scoring decisions; in simulation mode, nothing is scored until the
finalize block, which balances it against the question count. -/
def SessionInv (s : GlobalState) : Prop :=
  0 ≤ s.current_index ∧ 0 ≤ s.score ∧
  (s.quiz_finished = false → s.current_index < (s.quiz_data.length : Int)) ∧
  (s.quiz_finished = true → s.current_index + 1 = (s.quiz_data.length : Int)) ∧
  (s.simulation_mode = false →
    s.score + (s.incorrect_indices.length : Int) = decided s) ∧
  (s.simulation_mode = true →
    (s.quiz_finished = false →
      s.score = 0 ∧ s.incorrect_indices = [] ∧ s.sim_scored = false) ∧
    (s.quiz_finished = true →
      s.sim_scored = true ∧
      s.score + (s.incorrect_indices.length : Int) = (s.quiz_data.length : Int)))

theorem renderFeedback_scored (q : Question) (k : String) (s : GlobalState)
    (h : s.answer_submitted = true) : (renderFeedback q k s).scored_current = true := by
  unfold renderFeedback
  rw [h]
  by_cases hk : k = q.answer_key <;> by_cases hs : s.scored_current = true <;>
    simp [hk, hs]

theorem renderFeedback_stable (q : Question) (k : String) (s : GlobalState) :
    (renderFeedback q k s).answer_submitted = s.answer_submitted ∧
    (renderFeedback q k s).quiz_finished = s.quiz_finished ∧
    (renderFeedback q k s).simulation_mode = s.simulation_mode ∧
    (renderFeedback q k s).game_active = s.game_active ∧
    (renderFeedback q k s).current_index = s.current_index ∧
    (renderFeedback q k s).quiz_data = s.quiz_data := by
  unfold renderFeedback
  split_ifs <;> exact ⟨rfl, rfl, rfl, rfl, rfl, rfl⟩

theorem decided_active_scored (s : GlobalState) (hf : s.quiz_finished = false)
    (hsc : s.scored_current = true) : decided s = s.current_index + 1 := by
  unfold decided
  rw [if_neg (by simp [hf]), if_pos hsc]

theorem sessionInv_renderFeedback (q : Question) (k : String) (s : GlobalState)
    (hInv : SessionInv s) (hm : s.simulation_mode = false)
    (hf : s.quiz_finished = false) : SessionInv (renderFeedback q k s) := by
  obtain ⟨h1, h2, h3, h4, h5, h6⟩ := hInv
  have heq := h5 hm
  unfold decided at heq
  rw [if_neg (by simp [hf])] at heq
  unfold renderFeedback
  split_ifs with ha hk hs hs
  · exact ⟨h1, h2, h3, h4, h5, h6⟩
  · -- correct answer, not yet scored: score increments, sentinel set
    rw [if_neg hs] at heq
    refine ⟨h1, ?_, h3, h4, fun _ => ?_, ?_⟩
    · show 0 ≤ s.score + 1
      omega
    · rw [decided_active_scored
        { s with score := s.score + 1, scored_current := true } hf rfl]
      show s.score + 1 + (s.incorrect_indices.length : Int) = s.current_index + 1
      omega
    · exact fun hcon => absurd (show s.simulation_mode = true from hcon) (by simp [hm])
  · exact ⟨h1, h2, h3, h4, h5, h6⟩
  · -- wrong answer, not yet scored: question appended to missed, sentinel set
    rw [if_neg hs] at heq
    refine ⟨h1, h2, h3, h4, fun _ => ?_, ?_⟩
    · rw [decided_active_scored
        { s with incorrect_indices := s.incorrect_indices ++ [q], scored_current := true }
        hf rfl]
      show s.score + ((s.incorrect_indices ++ [q]).length : Int) = s.current_index + 1
      simp only [List.length_append, List.length_singleton]
      push_cast
      omega
    · exact fun hcon => absurd (show s.simulation_mode = true from hcon) (by simp [hm])
  · exact ⟨h1, h2, h3, h4, h5, h6⟩

theorem decided_active_unscored (s : GlobalState) (hf : s.quiz_finished = false)
    (hsc : s.scored_current = false) : decided s = s.current_index := by
  unfold decided
  rw [if_neg (by simp [hf]), if_neg (by simp [hsc])]
  omega

theorem decided_finished (s : GlobalState) (hfin : s.quiz_finished = true) :
    decided s = (s.quiz_data.length : Int) := by
  unfold decided
  rw [if_pos hfin]

theorem sessionInv_of_fields {s s' : GlobalState} (hInv : SessionInv s)
    (e1 : s'.score = s.score) (e2 : s'.incorrect_indices = s.incorrect_indices)
    (e3 : s'.current_index = s.current_index) (e4 : s'.quiz_data = s.quiz_data)
    (e5 : s'.quiz_finished = s.quiz_finished)
    (e6 : s'.simulation_mode = s.simulation_mode)
    (e7 : s'.scored_current = s.scored_current)
    (e8 : s'.sim_scored = s.sim_scored) : SessionInv s' := by
  obtain ⟨h1, h2, h3, h4, h5, h6⟩ := hInv
  have hdec : decided s' = decided s := by
    unfold decided
    rw [e5, e3, e7, e4]
  exact ⟨by rw [e3]; exact h1, by rw [e1]; exact h2,
    by rw [e5, e3, e4]; exact h3, by rw [e5, e3, e4]; exact h4,
    by rw [e6, e1, e2, hdec]; exact h5,
    by rw [e6, e5, e1, e2, e8, e4]; exact h6⟩

theorem sessionInv_advanceStudy {now : String} {s s' : GlobalState}
    (hInv : SessionInv s) (hm : s.simulation_mode = false)
    (hf : s.quiz_finished = false) (hsc : s.scored_current = true)
    (h : advanceStudy now s = .ok s') : SessionInv s' := by
  obtain ⟨h1, h2, h3, h4, h5, h6⟩ := hInv
  have hidx := h3 hf
  have heq : s.score + (s.incorrect_indices.length : Int) = s.current_index + 1 := by
    have h5m := h5 hm
    rw [decided_active_scored s hf hsc] at h5m
    exact h5m
  unfold advanceStudy at h
  by_cases hlt : s.current_index + 1 < (s.quiz_data.length : Int)
  · rw [if_pos hlt] at h
    cases h
    refine ⟨?_, h2, fun _ => hlt, fun hcon => ?_, fun _ => ?_, ?_⟩
    · show 0 ≤ s.current_index + 1
      omega
    · exact absurd (show s.quiz_finished = true from hcon) (by simp [hf])
    · rw [decided_active_unscored
        { s with answer_submitted := false, scored_current := false,
                 current_index := s.current_index + 1 } hf rfl]
      show s.score + (s.incorrect_indices.length : Int) = s.current_index + 1
      omega
    · exact fun hcon => absurd (show s.simulation_mode = true from hcon) (by simp [hm])
  · rw [if_neg hlt] at h
    have hn : (s.quiz_data.length : Int) ≠ 0 := by omega
    obtain ⟨f1, f2, f3, f4, f5, f6, f7, f8, f9, f10, f11⟩ :=
      finishRender_fields h (Or.inl hm) hn
    have f1s : s'.score = s.score := f1
    have f2s : s'.incorrect_indices = s.incorrect_indices := f2
    have f3s : s'.current_index = s.current_index := f3
    have f4s : s'.quiz_data = s.quiz_data := f4
    have f5s : s'.quiz_finished = true := f5
    have f6s : s'.simulation_mode = false :=
      (show s'.simulation_mode = s.simulation_mode from f6).trans hm
    refine ⟨?_, ?_, fun hcon => ?_, fun _ => ?_, fun _ => ?_, fun hcon => ?_⟩
    · rw [f3s]; exact h1
    · rw [f1s]; exact h2
    · rw [f5s] at hcon; exact absurd hcon (by simp)
    · rw [f3s, f4s]; omega
    · rw [decided_finished s' f5s, f1s, f2s, f4s]; omega
    · rw [f6s] at hcon; exact absurd hcon (by simp)

theorem sessionInv_advanceSim {now : String} {s s' : GlobalState}
    (h : advanceSim now s = .ok s') (hInv : SessionInv s)
    (hm : s.simulation_mode = true)
    (hf : s.quiz_finished = false) : SessionInv s' := by
  obtain ⟨h1, h2, h3, h4, h5, h6⟩ := hInv
  have hidx := h3 hf
  obtain ⟨hz, hmis, hss⟩ := (h6 hm).1 hf
  unfold advanceSim at h
  by_cases hlt : s.current_index + 1 < (s.quiz_data.length : Int)
  · rw [if_pos hlt] at h
    cases h
    refine ⟨?_, h2, fun _ => hlt, fun hcon => ?_, fun hcon => ?_, fun _ => ⟨fun _ => ?_, fun hcon => ?_⟩⟩
    · show 0 ≤ s.current_index + 1
      omega
    · exact absurd (show s.quiz_finished = true from hcon) (by simp [hf])
    · exact absurd (show s.simulation_mode = false from hcon) (by simp [hm])
    · exact ⟨hz, hmis, hss⟩
    · exact absurd (show s.quiz_finished = true from hcon) (by simp [hf])
  · rw [if_neg hlt] at h
    have hn : (s.quiz_data.length : Int) ≠ 0 := by omega
    obtain ⟨g1, g2, g3, g4, g5, g6, g7, g8, g9, g10⟩ := finishRender_sim h hm hss hn
    have g1s : s'.score = correctFrom s.quiz_data s.user_answers 0 := g1
    have g2s : s'.incorrect_indices = missedFrom s.quiz_data s.user_answers 0 := g2
    have g4s : s'.current_index = s.current_index := g4
    have g5s : s'.quiz_data = s.quiz_data := g5
    have g6s : s'.quiz_finished = true := g6
    refine ⟨?_, ?_, fun hcon => ?_, fun _ => ?_, fun hcon => ?_,
      fun _ => ⟨fun hcon => ?_, fun _ => ⟨g3, ?_⟩⟩⟩
    · rw [g4s]; exact h1
    · rw [g1s]; exact correctFrom_nonneg s.quiz_data s.user_answers 0
    · rw [g6s] at hcon; exact absurd hcon (by simp)
    · rw [g4s, g5s]; omega
    · rw [g7] at hcon; exact absurd hcon (by simp)
    · rw [g6s] at hcon; exact absurd hcon (by simp)
    · rw [g1s, g2s, g5s]
      exact correctFrom_add_missedFrom s.quiz_data s.user_answers 0

theorem sessionInv_finishRender {now : String} {s s' : GlobalState}
    (hInv : SessionInv s) (hfin : s.quiz_finished = true)
    (h : finishRender now s = .ok s') : SessionInv s' := by
  have hn : (s.quiz_data.length : Int) ≠ 0 := by
    obtain ⟨h1, _, _, h4, _, _⟩ := hInv
    have := h4 hfin
    omega
  by_cases hm : s.simulation_mode = true
  · have hsstrue := ((hInv.2.2.2.2.2 hm).2 hfin).1
    obtain ⟨f1, f2, f3, f4, f5, f6, f7, f8, f9, f10, f11⟩ :=
      finishRender_fields h (Or.inr hsstrue) hn
    exact sessionInv_of_fields hInv f1 f2 f3 f4 f5 f6 f7 f8
  · have hm2 : s.simulation_mode = false := by
      cases hb : s.simulation_mode with
      | false => rfl
      | true => exact absurd hb hm
    obtain ⟨f1, f2, f3, f4, f5, f6, f7, f8, f9, f10, f11⟩ :=
      finishRender_fields h (Or.inl hm2) hn
    exact sessionInv_of_fields hInv f1 f2 f3 f4 f5 f6 f7 f8

theorem sessionInv_step (e : Ev) {s s' : GlobalState} (hInv : SessionInv s)
    (h : step e s = .ok s') : SessionInv s' := by
  cases e with
  | submitClick k =>
      simp only [step] at h
      split at h
      · split at h
        · exact Except.noConfusion h
        · split at h
          · cases h; exact hInv
          · cases h; exact hInv
      · cases h; exact hInv
  | feedbackRender k =>
      simp only [step] at h
      split at h
      · rename_i hg
        simp only [Bool.and_eq_true, Bool.not_eq_true'] at hg
        split at h
        · exact Except.noConfusion h
        · rename_i q heq
          cases h
          exact sessionInv_renderFeedback q k s hInv hg.2 hg.1.2
      · cases h; exact hInv
  | nextClick k now =>
      simp only [step] at h
      split at h
      · rename_i hg
        simp only [Bool.and_eq_true, Bool.not_eq_true'] at hg
        split at h
        · exact Except.noConfusion h
        · rename_i q heq
          have stable := renderFeedback_stable q k s
          have hInv1 := sessionInv_renderFeedback q k s hInv hg.2 hg.1.2
          split at h
          · rename_i ha
            have hsub : s.answer_submitted = true := stable.1 ▸ ha
            exact sessionInv_advanceStudy hInv1
              (stable.2.2.1.trans hg.2) (stable.2.1.trans hg.1.2)
              (renderFeedback_scored q k s hsub) h
          · cases h; exact hInv1
      · cases h; exact hInv
  | simClick k now =>
      simp only [step] at h
      split at h
      · rename_i hg
        simp only [Bool.and_eq_true, Bool.not_eq_true'] at hg
        split at h
        · exact Except.noConfusion h
        · rename_i q heq
          split at h
          · exact sessionInv_advanceSim h hInv hg.2 hg.1.2
          · split at h
            · exact Except.noConfusion h
            · exact sessionInv_advanceSim h hInv hg.2 hg.1.2
      · cases h; exact hInv
  | finishRerender now =>
      simp only [step] at h
      split at h
      · rename_i hg
        exact sessionInv_finishRender hInv hg h
      · cases h; exact hInv

theorem sessionInv_reaches {s0 s : GlobalState} (h0 : SessionInv s0)
    (h : Reaches s0 s) : SessionInv s := by
  induction h with
  | refl => exact h0
  | tail e _ hstep ih => exact sessionInv_step e ih hstep

theorem sessionInv_start (qs : List Question) (sim : Bool)
    (hist : List HistoryEntry) (hqs : qs ≠ []) :
    SessionInv (startState qs sim hist) := by
  have hlen : 0 < qs.length := List.length_pos.mpr hqs
  refine ⟨le_refl 0, le_refl 0, fun _ => ?_, fun hcon => ?_, fun _ => ?_, fun _ => ?_⟩
  · show (0 : Int) < (qs.length : Int)
    omega
  · exact absurd (show (false : Bool) = true from hcon) (by simp)
  · rw [decided_active_unscored (startState qs sim hist) rfl rfl]
    rfl
  · exact ⟨fun _ => ⟨rfl, rfl, rfl⟩,
      fun hcon => absurd (show (false : Bool) = true from hcon) (by simp)⟩

-- ==========================================
-- Claim C7: score bounds and scoring decisions (corrected)
-- ==========================================

/-- Counterexample to claim C7 as stated: the score bound fails on a
reachable run once the save codec is involved.  A one-question study
session answers its question correctly (score 1), saves during the
feedback sub-state, and the token is restored in a fresh process; the
restore clears the answer-shown flag but the scoring sentinel of the saved
process was never part of the token, so re-answering the same question
scores it a second time — reaching score 2 on a one-question quiz,
violating both score ≤ len(questions) and one-decision-per-question. -/
theorem c7_counterexample :
    ((step (Ev.submitClick "A") (startState [qA] false [])).bind fun s1 =>
      (step (Ev.feedbackRender "A") s1).bind fun s2 =>
        (step (Ev.submitClick "A")
            ((load_save_code (some (generate_save_code s2)) initialState).1)).bind
          fun s4 =>
          (step (Ev.feedbackRender "A") s4).map fun s5 =>
            decide ((s5.quiz_data.length : Int) < s5.score)) =
      Except.ok true := by
  decide

/-- Claim C7 as amended: for every session driven from a clean start (the
Start New Exam handler pressed in a fresh process, so no stale sentinel
flags) through play events only — submits, feedback re-renders, advances,
simulation answers, game-over re-renders — and without restoring any save
token mid-session, the score stays within 0 ≤ score ≤ len(questions) at
every reachable state, and once the quiz is finished exactly
len(questions) scoring decisions have been committed: score plus the
number of missed questions equals len(questions).  (Restoring a token
saved during the feedback sub-state breaks this; see the counterexample.) -/
theorem c7_amended_invariant (qs : List Question) (sim : Bool)
    (hist : List HistoryEntry) (hqs : qs ≠ []) (s : GlobalState)
    (h : Reaches (startState qs sim hist) s) :
    0 ≤ s.score ∧ s.score ≤ (s.quiz_data.length : Int) ∧
    (s.quiz_finished = true →
      s.score + (s.incorrect_indices.length : Int) = (s.quiz_data.length : Int)) := by
  have hInv := sessionInv_reaches (sessionInv_start qs sim hist hqs) h
  obtain ⟨h1, h2, h3, h4, h5, h6⟩ := hInv
  refine ⟨h2, ?_, ?_⟩
  · by_cases hm : s.simulation_mode = true
    · by_cases hfin : s.quiz_finished = true
      · have := ((h6 hm).2 hfin).2
        omega
      · have hf : s.quiz_finished = false := by
          cases hb : s.quiz_finished with
          | false => rfl
          | true => exact absurd hb hfin
        have hz := ((h6 hm).1 hf).1
        have := h3 hf
        omega
    · have hm2 : s.simulation_mode = false := by
        cases hb : s.simulation_mode with
        | false => rfl
        | true => exact absurd hb hm
      have heq := h5 hm2
      by_cases hfin : s.quiz_finished = true
      · rw [decided_finished s hfin] at heq
        omega
      · have hf : s.quiz_finished = false := by
          cases hb : s.quiz_finished with
          | false => rfl
          | true => exact absurd hb hfin
        have hidx := h3 hf
        unfold decided at heq
        rw [if_neg (by simp [hf])] at heq
        by_cases hsc : s.scored_current = true
        · rw [if_pos hsc] at heq
          omega
        · rw [if_neg hsc] at heq
          omega
  · intro hfin
    by_cases hm : s.simulation_mode = true
    · exact ((h6 hm).2 hfin).2
    · have hm2 : s.simulation_mode = false := by
        cases hb : s.simulation_mode with
        | false => rfl
        | true => exact absurd hb hm
      have heq := h5 hm2
      rw [decided_finished s hfin] at heq
      exact heq

/-- Intermediate states of the witness run for the amended C7: a
two-question study session with the first question answered correctly and
the second submitted. -/
def wnow : String := "2025-01-01 00:00"

def wstate1 : GlobalState :=
  { startState [qA, qB] false [] with answer_submitted := true }

def wstate2 : GlobalState :=
  { startState [qA, qB] false [] with current_index := 1, score := 1 }

def wstate3 : GlobalState := { wstate2 with answer_submitted := true }

/-- Witness for the amended C7: the invariant holds at the reachable
mid-session state `wstate3` (three events into a two-question study run). -/
theorem c7_amended_invariant_witness :
    0 ≤ wstate3.score ∧ wstate3.score ≤ (wstate3.quiz_data.length : Int) ∧
    (wstate3.quiz_finished = true →
      wstate3.score + (wstate3.incorrect_indices.length : Int) =
        (wstate3.quiz_data.length : Int)) := by
  refine c7_amended_invariant [qA, qB] false [] (by decide) wstate3 ?_
  have r1 : Reaches (startState [qA, qB] false []) wstate1 :=
    Reaches.tail (Ev.submitClick "A") Reaches.refl (by decide)
  have r2 : Reaches (startState [qA, qB] false []) wstate2 :=
    Reaches.tail (Ev.nextClick "A" wnow) r1 (by decide)
  exact Reaches.tail (Ev.submitClick "A") r2 (by decide)

-- ==========================================
-- Claim C9: recording a completed session (corrected)
-- ==========================================

/-- Counterexample to claim C9 as stated: on a finished session with zero
questions the percentage computation is an unguarded Python division —
the game-over screen raises ZeroDivisionError (a crash propagating out of
the render), not a guarded DivisionGuard error value. -/
theorem c9_counterexample :
    finishRender "2025-01-01 00:00" { initialState with quiz_finished := true } =
      Except.error PyExn.zeroDivisionError := by
  decide

/-- Claim C9 as amended: recording a completed session computes
percent = (score / len(questions)) * 100 and appends exactly one history
entry (the append guarded by the `history_saved` sentinel) whenever the
session has at least one question and has not been recorded yet; when
len(questions) == 0 the division raises an unguarded ZeroDivisionError —
a crash, not a DivisionGuard error value (see the counterexample). -/
theorem c9_amended_record (now : String) (s : GlobalState)
    (hlen : 1 ≤ s.quiz_data.length)
    (hfin : s.simulation_mode = false ∨ s.sim_scored = true)
    (hsaved : s.history_saved = false) :
    ∃ e : HistoryEntry,
      finishRender now s =
        .ok { s with history := s.history ++ [e], history_saved := true } ∧
      e.date = now ∧
      e.score_label = toString s.score ++ "/" ++ toString (s.quiz_data.length : Int) ∧
      e.score_percent =
        round1 ((s.score : ℚ) / ((s.quiz_data.length : Int) : ℚ) * 100) := by
  refine ⟨{ date := now
            score_label := toString s.score ++ "/" ++ toString (s.quiz_data.length : Int)
            score_percent :=
              round1 ((s.score : ℚ) / ((s.quiz_data.length : Int) : ℚ) * 100) },
    ?_, rfl, rfl, rfl⟩
  unfold finishRender
  rw [simFinalize_noop s hfin]
  rw [if_neg (show ¬ ((s.quiz_data.length : Int) = 0) by omega)]
  rw [if_neg (show ¬ (s.history_saved = true) by simp [hsaved])]

/-- The finished one-question study session used as witness input for the
amended C9. -/
def recordedState : GlobalState :=
  { startState [qA] false [] with
      quiz_finished := true, game_active := false, score := 1 }

/-- Witness for the amended C9 at a finished one-question session. -/
theorem c9_amended_record_witness :
    ∃ e : HistoryEntry,
      finishRender "2025-01-01 00:00" recordedState =
        .ok { recordedState with
                history := recordedState.history ++ [e], history_saved := true } ∧
      e.date = "2025-01-01 00:00" ∧
      e.score_label = toString recordedState.score ++ "/" ++
        toString (recordedState.quiz_data.length : Int) ∧
      e.score_percent =
        round1 ((recordedState.score : ℚ) /
          ((recordedState.quiz_data.length : Int) : ℚ) * 100) :=
  c9_amended_record "2025-01-01 00:00" recordedState (by decide) (Or.inl rfl) rfl
